import Mathlib

/-!
Shallow embedding of the DNS authority module (an authoritative resolver over
an in-memory zone store together with a BIND master-file parser), and proofs
about its resolution and parsing behaviour.

Python strings are modelled as Lean `String`; the small string operations the
source uses (`str.lower`, `str.endswith`, slicing, `str.split`, `str.find`,
`str.isdigit`, `int`) are modelled by explicit functions over the character
list, matching Python semantics on the inputs that occur here.
-/

/-- Python str.lower, character by character. -/
def lower (s : String) : String :=
  String.mk (s.toList.map Char.toLower)

/-- Python s.endswith(suffix). -/
def strEndsWith (s suffix : String) : Bool :=
  suffix.toList.isSuffixOf s.toList

/-- Python s[:-1]: drop the final character. -/
def dropLastChar (s : String) : String :=
  String.mk s.toList.dropLast

/-- True when the character c occurs in s (Python s.find(c) != -1). -/
def containsChar (s : String) (c : Char) : Bool :=
  s.toList.contains c

/-- Python s[:s.find(c)] for a character c occurring in s: the prefix of s
before the first occurrence of c (and all of s when c is absent). -/
def beforeChar (s : String) (c : Char) : String :=
  String.mk (s.toList.takeWhile (fun d => d ≠ c))

/-- Python s.strip(): remove leading and trailing whitespace. -/
def strTrim (s : String) : String :=
  String.mk ((s.toList.dropWhile Char.isWhitespace).reverse.dropWhile
    Char.isWhitespace).reverse

/-- Python s.isdigit(): nonempty and all characters are decimal digits. -/
def isdigit (s : String) : Bool :=
  s ≠ "" && s.toList.all Char.isDigit

/-- Python int(s) for a digit string. -/
def digitsToNat (s : String) : Nat :=
  s.toList.foldl (fun n c => n * 10 + (c.toNat - 48)) 0

/-- Accumulating helper for whitespace tokenisation. -/
def splitWsAux : List Char → List Char → List String
  | [], cur => if cur.isEmpty then [] else [String.mk cur.reverse]
  | c :: cs, cur =>
    if c.isWhitespace then
      if cur.isEmpty then splitWsAux cs []
      else String.mk cur.reverse :: splitWsAux cs []
    else splitWsAux cs (c :: cur)

/-- Python s.split() with no argument: split on whitespace runs, no empty
tokens. -/
def splitWs (s : String) : List String :=
  splitWsAux s.toList []

namespace dns

/-- DNS TYPE code for an A record (dns.A). -/
def A : Nat := 1
/-- DNS TYPE code for an NS record (dns.NS). -/
def NS : Nat := 2
/-- DNS TYPE code for a CNAME record (dns.CNAME). -/
def CNAME : Nat := 5
/-- DNS TYPE code for an SOA record (dns.SOA). -/
def SOA : Nat := 6
/-- DNS TYPE code for an MX record (dns.MX). -/
def MX : Nat := 15
/-- DNS TYPE code for an AAAA record (dns.AAAA). -/
def AAAA : Nat := 28
/-- Wildcard query type matching every record (dns.ALL_RECORDS). -/
def ALL_RECORDS : Nat := 255
/-- DNS CLASS code for the Internet class (dns.IN). -/
def IN : Nat := 1

end dns

/-- A zone data record (a dns.Record_ payload instance).  The fields are the
ones the authority module reads: the TYPE code, the optional explicit ttl,
the referenced name (payload.name.name, meaningful for CNAME, MX and NS
payloads), and the SOA minimum and expire fields used for the default-TTL
fallback. -/
structure Record where
  TYPE : Nat
  ttl : Option Nat
  name : String
  minimum : Nat
  expire : Nat
deriving DecidableEq, Repr

/-- A dns.RRHeader: a section entry of a response, wrapping a payload
record. -/
structure RRHeader where
  name : String
  rtype : Nat
  cls : Nat
  ttl : Nat
  payload : Record
  auth : Bool
deriving DecidableEq, Repr

/-- The lookup-time failure taxonomy.  AuthoritativeDomainError is the error
the spec calls NotAuthoritative; DomainError is the one it calls NotInZone
(raised so that the next chained authority is queried). -/
inductive DNSError where
  | AuthoritativeDomainError (name : String)
  | DomainError (name : String)
deriving DecidableEq, Repr

/-- The MemoryAuthority state: the SOA identity (soa attribute, a pair of the
apex name and the SOA record), the record store (a dict from lower-cased
owner name to the list of records, in insertion order), and the optional
configured default TTL. -/
structure MemoryAuthority where
  soaName : String
  soaRecord : Record
  records : List (String × List Record)
  defaultTTLValue : Option Nat
deriving DecidableEq, Repr

/-- Python dict.get(key): the value at the first (unique) matching key. -/
def storeGet (records : List (String × List Record)) (key : String) :
    Option (List Record) :=
  (records.find? (fun kv => kv.1 == key)).map Prod.snd

/-- Python dict.get(key, ()): like storeGet with an empty default. -/
def storeGetD (records : List (String × List Record)) (key : String) :
    List Record :=
  (storeGet records key).getD []

/-- MemoryAuthority._defaultTTL: the configured value, or the documented
legacy fallback max(soa.minimum, soa.expire). -/
def defaultTTL (auth : MemoryAuthority) : Nat :=
  match auth.defaultTTLValue with
  | some t => t
  | none => max auth.soaRecord.minimum auth.soaRecord.expire

/-- The per-record ttl computed at the top of the _lookup loop (and again in
lookupZone): the record's ttl when it is not None, else the default. -/
def effTTL (auth : MemoryAuthority) (r : Record) : Nat :=
  match r.ttl with
  | some t => t
  | none => defaultTTL auth

/-- The Python expression (rec.ttl or default) used in _additionalRecords:
by Python truthiness both None and 0 fall back to the default. -/
def orTTL (ttl : Option Nat) (dflt : Nat) : Nat :=
  match ttl with
  | some t => if t = 0 then dflt else t
  | none => dflt

/-- MemoryAuthority._ADDITIONAL_PROCESSING_TYPES. -/
def ADDITIONAL_PROCESSING_TYPES : List Nat := [dns.CNAME, dns.MX, dns.NS]

/-- MemoryAuthority._ADDRESS_TYPES. -/
def ADDRESS_TYPES : List Nat := [dns.A, dns.AAAA]

/-- MemoryAuthority._additionalRecords: for every answer or authority entry
whose type gets additional processing, look up the referenced name in the
store and emit an authoritative header for each address record found, with
ttl (rec.ttl or defaultTTL). -/
def additionalRecords (auth : MemoryAuthority)
    (answer authority : List RRHeader) : List RRHeader :=
  (answer ++ authority).flatMap (fun record =>
    if ADDITIONAL_PROCESSING_TYPES.contains record.rtype then
      (storeGetD auth.records (lower record.payload.name)).flatMap (fun rec =>
        if ADDRESS_TYPES.contains rec.TYPE then
          [⟨record.payload.name, rec.TYPE, dns.IN,
            orTTL rec.ttl (defaultTTL auth), rec, true⟩]
        else [])
    else [])

/-- The record pass of MemoryAuthority._lookup: iterate the owner's records
accumulating, in order, the results, authority and cnames lists.  An NS
record whose owner differs from the apex is a referral (authority,
auth=false); otherwise a record matching the queried type (or a wildcard
query) is an answer; independently every CNAME record is collected. -/
def lookupPass (auth : MemoryAuthority) (name : String) (qtype : Nat) :
    List Record → List RRHeader × List RRHeader × List RRHeader
  | [] => ([], [], [])
  | r :: rs =>
    let ttl := effTTL auth r
    let rest := lookupPass auth name qtype rs
    let referral := r.TYPE = dns.NS ∧ lower name ≠ lower auth.soaName
    let auth0 : List RRHeader :=
      if referral then [⟨name, r.TYPE, dns.IN, ttl, r, false⟩] else []
    let res0 : List RRHeader :=
      if ¬ referral ∧ (r.TYPE = qtype ∨ qtype = dns.ALL_RECORDS) then
        [⟨name, r.TYPE, dns.IN, ttl, r, true⟩]
      else []
    let cn0 : List RRHeader :=
      if r.TYPE = dns.CNAME then [⟨name, r.TYPE, dns.IN, ttl, r, true⟩]
      else []
    (res0 ++ rest.1, auth0 ++ rest.2.1, cn0 ++ rest.2.2)

/-- The value left in the loop variable ttl after the _lookup record pass:
the effective ttl of the last record examined (0 is a placeholder for the
unreachable empty case, where Python would leave the variable unbound). -/
def lastTTL (auth : MemoryAuthority) : List Record → Nat
  | [] => 0
  | [r] => effTTL auth r
  | _ :: r :: rs => lastTTL auth (r :: rs)

/-- Modelled from the spec: the subdomain test dns._isSubdomainOf used by
_lookup on a store miss lives in the dns module, which is not part of this
file.  Per the spec the test holds when the name is a subdomain of, or equal
to, the zone apex, compared case-insensitively. -/
def isSubdomainOf (descendant ancestor : String) : Bool :=
  lower descendant == lower ancestor ||
    strEndsWith (lower descendant) ("." ++ lower ancestor)

/-- The failure branch of _lookup for a name with no (truthy) store entry:
AuthoritativeDomainError when the name is under the apex, else
DomainError. -/
def nxResult (auth : MemoryAuthority) (name : String) :
    Except DNSError (List RRHeader × List RRHeader × List RRHeader) :=
  if isSubdomainOf name auth.soaName then
    Except.error (DNSError.AuthoritativeDomainError name)
  else
    Except.error (DNSError.DomainError name)

/-- The assembly of the three sections in _lookup after the record pass:
CNAME substitution when results is empty, additional-record synthesis
extended into results when any CNAME was seen and into additional otherwise,
and the SOA negative-answer append (reusing the leftover loop ttl) when both
results and authority ended empty. -/
def assemble (auth : MemoryAuthority) (recs : List Record)
    (results0 authority0 cnames : List RRHeader) :
    List RRHeader × List RRHeader × List RRHeader :=
  let results1 := if results0 = [] then cnames else results0
  let info := additionalRecords auth results1 authority0
  let results2 := if cnames = [] then results1 else results1 ++ info
  let additional := if cnames = [] then info else []
  let authority1 :=
    if results2 = [] ∧ authority0 = [] then
      authority0 ++
        [⟨auth.soaName, dns.SOA, dns.IN, lastTTL auth recs,
          auth.soaRecord, true⟩]
    else authority0
  (results2, authority1, additional)

/-- MemoryAuthority._lookup: fetch the records stored under the lower-cased
query name; on a truthy (present and nonempty) entry run the record pass and
assemble the sections, otherwise fail via nxResult.  The Deferred wrapper is
modelled by Except. -/
def lookup (auth : MemoryAuthority) (name : String) (qtype : Nat) :
    Except DNSError (List RRHeader × List RRHeader × List RRHeader) :=
  match storeGet auth.records (lower name) with
  | some (r :: rs) =>
    let p := lookupPass auth name qtype (r :: rs)
    Except.ok (assemble auth (r :: rs) p.1 p.2.1 p.2.2)
  | _ => nxResult auth name

/-- The ttl picked for the SOA header in lookupZone: the SOA record's own
ttl when not None, else the default. -/
def soaTTL (auth : MemoryAuthority) : Nat :=
  match auth.soaRecord.ttl with
  | some t => t
  | none => defaultTTL auth

/-- The SOA header that bounds a lookupZone result. -/
def soaHeader (auth : MemoryAuthority) : RRHeader :=
  ⟨auth.soaName, dns.SOA, dns.IN, soaTTL auth, auth.soaRecord, true⟩

/-- The middle of a lookupZone result: for every store entry, in store
order, an authoritative header for each record whose type is not SOA. -/
def zoneBody (auth : MemoryAuthority) : List RRHeader :=
  auth.records.flatMap (fun kv =>
    kv.2.flatMap (fun rec =>
      if rec.TYPE = dns.SOA then []
      else [⟨kv.1, rec.TYPE, dns.IN, effTTL auth rec, rec, true⟩]))

/-- MemoryAuthority.lookupZone: on a case-insensitive apex match, the SOA
header, then every non-SOA record of the store, then the first list element
(the SOA header) again; otherwise fail with dns.DomainError(name).  Only the
record list of the returned triple is modelled (the other two components are
the constant empty tuples). -/
def lookupZone (auth : MemoryAuthority) (name : String) :
    Except DNSError (List RRHeader) :=
  if lower auth.soaName = lower name then
    Except.ok (soaHeader auth :: zoneBody auth ++ [soaHeader auth])
  else
    Except.error (DNSError.DomainError name)

/-- The number of non-SOA records held by a store. -/
def countNonSOA (records : List (String × List Record)) : Nat :=
  (records.map (fun kv =>
    (kv.2.filter (fun r => r.TYPE ≠ dns.SOA)).length)).sum

/-!
The BindAuthority master-file parser.
-/

/-- Modelled from the spec: dns.QUERY_CLASSES.values(), the fixed recognized
set of class keywords; the dns module is not part of this file. -/
def QUERY_CLASSES : List String := ["IN", "CS", "CH", "HS", "ANY"]

/-- Modelled from the spec: dns.QUERY_TYPES.values(), the recognized
record-type keywords; the spec's minimum supported set. -/
def QUERY_TYPES : List String := ["A", "NS", "CNAME", "SOA", "MX", "AAAA"]

/-- The MARKERS list of parseRecordLine: class keywords then type
keywords. -/
def MARKERS : List String := QUERY_CLASSES ++ QUERY_TYPES

/-- Modelled from the spec: the static registry of record constructors
resolved by class_IN (getattr on a Record_ name in the dns module, which is
not part of this file); the spec's minimum supported type set. -/
def RECORD_TYPES : List String := ["A", "NS", "CNAME", "SOA", "MX", "AAAA"]

/-- Parse-time failures: an out-of-range token access (Python IndexError on
a malformed line), an unsupported record class or type (NotImplementedError
in addRecord and class_IN), and an unsupported directive (NotImplementedError
in parseLines). -/
inductive ParseError where
  | IndexError
  | UnsupportedClass (cls : String)
  | UnsupportedType (ty : String)
  | UnsupportedDirective (d : String)
deriving DecidableEq, Repr

/-- A record built by the parser: the type keyword, the positional rdata
tokens consumed by its constructor, and the ttl assigned after
construction. -/
structure ParsedRecord where
  typeName : String
  rdata : List String
  ttl : Nat
deriving DecidableEq, Repr

/-- The mutable parser outcome: the records dict (insertion-ordered, keyed
by lower-cased domain) and the soa attribute once an SOA record is seen. -/
structure ParseState where
  records : List (String × List ParsedRecord)
  soa : Option (String × ParsedRecord)
deriving DecidableEq, Repr

/-- Python dict.setdefault(key, []).append(r): append to the list at the
key, creating the entry at the end of the dict when absent. -/
def storeAppend :
    List (String × List ParsedRecord) → String → ParsedRecord →
    List (String × List ParsedRecord)
  | [], k, r => [(k, [r])]
  | (k', rs) :: t, k, r =>
    if k' = k then (k', rs ++ [r]) :: t else (k', rs) :: storeAppend t k r

/-- The arguments parseRecordLine hands to addRecord. -/
structure RecordLineArgs where
  owner : String
  ttl : Nat
  rtype : String
  domain : String
  cls : String
  rdata : List String
deriving DecidableEq, Repr

/-- The first two token blocks of BindAuthority.parseRecordLine.  The local
owner starts as the origin for every line; a leading token that is "@" or a
plain name (not a digit string, not a marker) sets it and is consumed.  Then
a front token that is a digit string or a marker leaves the line alone and
takes the owner as domain (resetting owner to the origin), while any other
front token is consumed as the domain.  Returns (owner, domain, rest of
line). -/
def ownerAndDomain (origin : String) (line : List String) :
    Except ParseError (String × String × List String) :=
  match line with
  | [] => Except.error ParseError.IndexError
  | t0 :: rest0 =>
    let ownerLine : String × List String :=
      if t0 = "@" then (origin, rest0)
      else if !isdigit t0 && !MARKERS.contains t0 then (t0, rest0)
      else (origin, t0 :: rest0)
    match ownerLine.2 with
    | [] => Except.error ParseError.IndexError
    | u0 :: rest1 =>
      if isdigit u0 || MARKERS.contains u0 then
        Except.ok (origin, ownerLine.1, u0 :: rest1)
      else
        Except.ok (ownerLine.1, u0, rest1)

/-- The optional class and ttl token block of parseRecordLine: a class
keyword optionally followed by a digit ttl, or a digit ttl optionally
followed by a class keyword; the class defaults to "IN" and the ttl to the
context default.  Each consumption is followed by a front-token test, an
IndexError when the line is already exhausted.  Returns (cls, ttl, rest of
line). -/
def classTTL (dfltTTL : Nat) (line : List String) :
    Except ParseError (String × Nat × List String) :=
  match line with
  | [] => Except.error ParseError.IndexError
  | v :: rest =>
    if QUERY_CLASSES.contains v then
      match rest with
      | [] => Except.error ParseError.IndexError
      | w :: rest2 =>
        if isdigit w then Except.ok (v, digitsToNat w, rest2)
        else Except.ok (v, dfltTTL, rest)
    else if isdigit v then
      match rest with
      | [] => Except.error ParseError.IndexError
      | w :: rest2 =>
        if QUERY_CLASSES.contains w then Except.ok (w, digitsToNat v, rest2)
        else Except.ok ("IN", digitsToNat v, rest)
    else Except.ok ("IN", dfltTTL, line)

/-- BindAuthority.parseRecordLine up to the addRecord call: owner and domain
resolution, then class and ttl, then the record-type keyword and the
remaining rdata tokens. -/
def parseRecordLine (origin : String) (dfltTTL : Nat) (line : List String) :
    Except ParseError RecordLineArgs :=
  match ownerAndDomain origin line with
  | Except.error e => Except.error e
  | Except.ok (owner, domain, line2) =>
    match classTTL dfltTTL line2 with
    | Except.error e => Except.error e
    | Except.ok (cls, ttl, line3) =>
      match line3 with
      | [] => Except.error ParseError.IndexError
      | ty :: rdata => Except.ok ⟨owner, ttl, ty, domain, cls, rdata⟩

/-- BindAuthority.class_IN: resolve the type keyword in the constructor
registry (unknown type fails), build the record with the rdata tokens,
assign the ttl, append it to the dict under the lower-cased domain, and for
an SOA record set the zone's soa identity. -/
def class_IN (st : ParseState) (ttl : Nat) (ty : String) (domain : String)
    (rdata : List String) : Except ParseError ParseState :=
  if RECORD_TYPES.contains ty then
    if ty = "SOA" then
      Except.ok ⟨storeAppend st.records (lower domain) ⟨ty, rdata, ttl⟩,
        some (domain, ⟨ty, rdata, ttl⟩)⟩
    else
      Except.ok ⟨storeAppend st.records (lower domain) ⟨ty, rdata, ttl⟩,
        st.soa⟩
  else Except.error (ParseError.UnsupportedType ty)

/-- BindAuthority.addRecord: normalise the domain (a trailing dot is
stripped, otherwise a dot and the owner argument are appended) and dispatch
on the class, of which only IN exists. -/
def addRecord (st : ParseState) (owner : String) (ttl : Nat)
    (ty domain cls : String) (rdata : List String) :
    Except ParseError ParseState :=
  if cls = "IN" then
    class_IN st ttl ty
      (if !strEndsWith domain "." then domain ++ "." ++ owner
       else dropLastChar domain) rdata
  else Except.error (ParseError.UnsupportedClass cls)

/-- One record line of the parse: parseRecordLine followed by its addRecord
call. -/
def processRecordLine (st : ParseState) (origin : String) (dfltTTL : Nat)
    (line : List String) : Except ParseError ParseState :=
  match parseRecordLine origin dfltTTL line with
  | Except.error e => Except.error e
  | Except.ok a => addRecord st a.owner a.ttl a.rtype a.domain a.cls a.rdata

/-- Modelled from the spec: dns.str2time, used for the TTL directive value,
lives in the dns module, which is not part of this file; a plain decimal
value is a second count. -/
def str2time (s : String) : Nat := digitsToNat s

/-- The directive/record loop of BindAuthority.parseLines, threading the
mutable ORIGIN and TTL context. -/
def parseLinesGo (st : ParseState) (origin : String) (ttl : Nat) :
    List (List String) → Except ParseError ParseState
  | [] => Except.ok st
  | line :: rest =>
    match line with
    | [] => Except.error ParseError.IndexError
    | t0 :: lrest =>
      if t0 = "$TTL" then
        match lrest with
        | [] => Except.error ParseError.IndexError
        | v :: _ => parseLinesGo st origin (str2time v) rest
      else if t0 = "$ORIGIN" then
        match lrest with
        | [] => Except.error ParseError.IndexError
        | v :: _ => parseLinesGo st v ttl rest
      else if t0 = "$INCLUDE" then
        Except.error (ParseError.UnsupportedDirective "$INCLUDE")
      else if t0 = "$GENERATE" then
        Except.error (ParseError.UnsupportedDirective "$GENERATE")
      else
        match processRecordLine st origin ttl (t0 :: lrest) with
        | Except.error e => Except.error e
        | Except.ok st2 => parseLinesGo st2 origin ttl rest

/-- BindAuthority.parseLines: an empty store and soa, the initial context
TTL of three hours, and the loop. -/
def parseLines (origin : String) (lines : List (List String)) :
    Except ParseError ParseState :=
  parseLinesGo ⟨[], none⟩ origin (60 * 60 * 3) lines

/-- BindAuthority.stripComments: strip each line and truncate it at the
first semicolon. -/
def stripComments (lines : List String) : List String :=
  lines.map (fun b =>
    let a := strTrim b
    if !containsChar a ';' then a else beforeChar a ';')

/-- The line-joining state machine of BindAuthority.collapseContinuations,
with the output accumulated in reverse.  In state 0 a line containing an
opening parenthesis is truncated at it and opens a continuation —
regardless of whether the same line also holds the closing parenthesis.  In
state 1 each line is space-joined onto the last output line, a line
containing the closing parenthesis (truncated at it) ending the
continuation. -/
def collapseLoop : List String → Nat → List String → List String
  | [], _, acc => acc.reverse
  | line :: rest, 0, acc =>
    if containsChar line '(' then
      collapseLoop rest 1 (beforeChar line '(' :: acc)
    else
      collapseLoop rest 0 (line :: acc)
  | line :: rest, _ + 1, acc =>
    match acc with
    | [] => []
    | last :: prior =>
      if containsChar line ')' then
        collapseLoop rest 0 ((last ++ " " ++ beforeChar line ')') :: prior)
      else
        collapseLoop rest 1 ((last ++ " " ++ line) :: prior)

/-- BindAuthority.collapseContinuations: run the joining state machine, then
whitespace-tokenise every logical line and drop the empty token lists
(filter(None, L)). -/
def collapseContinuations (lines : List String) : List (List String) :=
  ((collapseLoop lines 0 []).map splitWs).filter (fun l => !l.isEmpty)

/-- The BindAuthority.loadFile pipeline from the physical lines onward:
comment stripping, continuation collapsing, then the directive/record
loop. -/
def loadLines (origin : String) (physLines : List String) :
    Except ParseError ParseState :=
  parseLines origin (collapseContinuations (stripComments physLines))

/-!
Concrete zone instances used by the witnesses and counterexamples.
-/

/-- An SOA payload with no explicit ttl (minimum 3600, expire 604800). -/
def soaRecEx : Record := ⟨dns.SOA, none, "ns1.example.com", 3600, 604800⟩

/-- An SOA payload with an explicit ttl of 55, stored in the zone of
authC7. -/
def soaRecSt : Record := ⟨dns.SOA, some 55, "ns1.example.com", 3600, 604800⟩

/-- An MX record pointing at mail.example.com with ttl 100. -/
def recMX1 : Record := ⟨dns.MX, some 100, "mail.example.com", 0, 0⟩

/-- A CNAME record pointing at other.example.com with ttl 100. -/
def recCN1 : Record := ⟨dns.CNAME, some 100, "other.example.com", 0, 0⟩

/-- An A record with ttl 50. -/
def recA1 : Record := ⟨dns.A, some 50, "", 0, 0⟩

/-- An A record with ttl 123. -/
def recA3 : Record := ⟨dns.A, some 123, "", 0, 0⟩

/-- An A record with an explicit ttl of zero. -/
def recA0 : Record := ⟨dns.A, some 0, "", 0, 0⟩

/-- A zone whose apex owns an MX record and a CNAME record, with an A record
at the MX target. -/
def authC1 : MemoryAuthority :=
  ⟨"example.com", soaRecEx,
   [("example.com", [recMX1, recCN1]), ("mail.example.com", [recA1])],
   some 42⟩

/-- The answer header produced for recMX1 at the apex of authC1. -/
def hdrMX1 : RRHeader := ⟨"example.com", dns.MX, dns.IN, 100, recMX1, true⟩

/-- The additional-processing header synthesized from recA1 for the MX
target. -/
def hdrGlue1 : RRHeader :=
  ⟨"mail.example.com", dns.A, dns.IN, 50, recA1, true⟩

/-- A zone with an empty store. -/
def authC2 : MemoryAuthority := ⟨"example.com", soaRecEx, [], none⟩

/-- A zone holding only an A record at www.example.com. -/
def authC3 : MemoryAuthority :=
  ⟨"example.com", soaRecEx, [("www.example.com", [recA3])], some 42⟩

/-- A zone storing its SOA record plus two non-SOA records. -/
def authC7 : MemoryAuthority :=
  ⟨"example.com", soaRecSt,
   [("example.com", [soaRecSt, recMX1]), ("www.example.com", [recA3])],
   some 42⟩

/-- The zoneBody header for recA3 in authC7. -/
def hdrA7 : RRHeader :=
  ⟨"www.example.com", dns.A, dns.IN, 123, recA3, true⟩

/-- A zone used for the lookupZone mismatch claims. -/
def authC8 : MemoryAuthority := ⟨"example.com", soaRecEx, [], some 42⟩

/-- A zone whose MX target has an A record with an explicit ttl of zero. -/
def authC9 : MemoryAuthority :=
  ⟨"example.com", soaRecEx,
   [("example.com", [recMX1]), ("mail.example.com", [recA0])], some 42⟩

/-- The additional-section header authC9 synthesizes for recA0: its ttl is
the zone default (42), not the record's explicit zero. -/
def hdrGlue9 : RRHeader :=
  ⟨"mail.example.com", dns.A, dns.IN, 42, recA0, true⟩

/-- A zone whose store has a present key mapping to an empty record list. -/
def authC10 : MemoryAuthority :=
  ⟨"example.com", soaRecEx, [("gone.example.com", [])], none⟩

/-- The parenthesized SOA input of the spec, split across continued physical
lines. -/
def soaMultiLines : List String :=
  ["@ IN SOA ns1 admin (", "    2020010100", "    3600", "    600",
   "    604800", "    3600 )"]

/-- The same input as a single physical line. -/
def soaSingleLine : List String :=
  ["@ IN SOA ns1 admin ( 2020010100 3600 600 604800 3600 )"]

/-- The seven rdata tokens of the continued form. -/
def soaRdataFull : List String :=
  ["ns1", "admin", "2020010100", "3600", "600", "604800", "3600"]

/-- The arguments parseRecordLine produces for the implicit-owner line
600 IN A 5.6.7.8 under origin example.com. -/
def args600 : RecordLineArgs :=
  ⟨"example.com.", 600, "A", "example.com.", "IN", ["5.6.7.8"]⟩

/-- The parse state after the record line www IN A 9.9.9.9 under origin
example.com. -/
def stWWW : ParseState :=
  ⟨[("www.example.com.", [⟨"A", ["9.9.9.9"], 10800⟩])], none⟩

/-!
Helper lemmas.
-/

/-- The leftover loop ttl equals the effective ttl of the last record of a
nonempty list. -/
theorem lastTTL_eq_getLast (auth : MemoryAuthority) :
    ∀ (l : List Record) (h : l ≠ []), lastTTL auth l = effTTL auth (l.getLast h)
  | [r], _ => rfl
  | a :: b :: t, _ => by
    have ih := lastTTL_eq_getLast auth (b :: t) (List.cons_ne_nil b t)
    simpa [lastTTL, List.getLast] using ih

/-- The per-owner slice of zoneBody has as many headers as the owner has
non-SOA records. -/
theorem zone_inner_len (auth : MemoryAuthority) (k : String) :
    ∀ (l : List Record),
    ((l.flatMap (fun rec =>
        if rec.TYPE = dns.SOA then []
        else [(⟨k, rec.TYPE, dns.IN, effTTL auth rec, rec, true⟩ :
          RRHeader)])).length
      = (l.filter (fun r => r.TYPE ≠ dns.SOA)).length)
  | [] => rfl
  | r :: t => by
    by_cases h : r.TYPE = dns.SOA <;>
      simp [h, zone_inner_len auth k t, List.filter_cons]

/-- zoneBody holds exactly one header per non-SOA record of the store. -/
theorem zoneBody_length (auth : MemoryAuthority) :
    (zoneBody auth).length = countNonSOA auth.records := by
  unfold zoneBody countNonSOA
  induction auth.records with
  | nil => rfl
  | cons kv t ih =>
    simp only [List.flatMap_cons, List.map_cons, List.sum_cons,
      List.length_append, ih, zone_inner_len auth kv.1 kv.2]

/-- The last element of a list ending in a singleton append. -/
theorem getLast?_append_singleton {α : Type} (l : List α) (a : α) :
    (l ++ [a]).getLast? = some a := by
  induction l with
  | nil => rfl
  | cons b t ih => rw [List.cons_append, List.getLast?_cons, ih]; rfl

/-- Every header placed by the record pass carries the effective ttl of its
payload record. -/
theorem pass_header_ttl (auth : MemoryAuthority) (name : String)
    (qtype : Nat) :
    ∀ (recs : List Record) (h : RRHeader),
      (h ∈ (lookupPass auth name qtype recs).1 ∨
       h ∈ (lookupPass auth name qtype recs).2.1 ∨
       h ∈ (lookupPass auth name qtype recs).2.2) →
      h.ttl = effTTL auth h.payload
  | [], h, hm => by
    rcases hm with hm | hm | hm <;> exact absurd hm (List.not_mem_nil h)
  | r :: rs, h, hm => by
    have ih := pass_header_ttl auth name qtype rs h
    simp only [lookupPass, List.mem_append] at hm
    rcases hm with (hm | hm) | (hm | hm) | (hm | hm)
    · split at hm
      · simp only [List.mem_singleton] at hm
        subst hm
        rfl
      · simp at hm
    · exact ih (Or.inl hm)
    · split at hm
      · simp only [List.mem_singleton] at hm
        subst hm
        rfl
      · simp at hm
    · exact ih (Or.inr (Or.inl hm))
    · split at hm
      · simp only [List.mem_singleton] at hm
        subst hm
        rfl
      · simp at hm
    · exact ih (Or.inr (Or.inr hm))

/-- Every synthesized additional header carries (payload ttl or default),
the Python truthiness fallback. -/
theorem additional_header_ttl (auth : MemoryAuthority)
    (ans au : List RRHeader) (h : RRHeader)
    (hm : h ∈ additionalRecords auth ans au) :
    h.ttl = orTTL h.payload.ttl (defaultTTL auth) := by
  unfold additionalRecords at hm
  simp only [List.mem_flatMap] at hm
  obtain ⟨record, _, hm⟩ := hm
  split at hm
  · simp only [List.mem_flatMap] at hm
    obtain ⟨rec, _, hm⟩ := hm
    split at hm
    · simp only [List.mem_singleton] at hm
      subst hm
      rfl
    · simp at hm
  · simp at hm

/-- Every zoneBody header carries the effective ttl of its payload
record. -/
theorem zoneBody_header_ttl (auth : MemoryAuthority) (h : RRHeader)
    (hm : h ∈ zoneBody auth) : h.ttl = effTTL auth h.payload := by
  unfold zoneBody at hm
  simp only [List.mem_flatMap] at hm
  obtain ⟨kv, _, rec, _, hm⟩ := hm
  split at hm
  · simp at hm
  · simp only [List.mem_singleton] at hm
    subst hm
    rfl

/-!
The claims.
-/

/-- Claim C2: for every query name whose lower-cased form is absent from the
store, resolve fails, with AuthoritativeDomainError (NotAuthoritative) when
the name is a subdomain of or equal to the zone apex and with DomainError
(NotInZone) otherwise; no sections are returned. -/
theorem absent_name_failure_split (auth : MemoryAuthority) (name : String)
    (qtype : Nat) (habs : storeGet auth.records (lower name) = none) :
    lookup auth name qtype =
      if isSubdomainOf name auth.soaName then
        Except.error (DNSError.AuthoritativeDomainError name)
      else Except.error (DNSError.DomainError name) := by
  unfold lookup
  rw [habs]
  rfl

/-- Witness for C2: the empty zone of authC2 fails a lookup of
sub.example.com with the NotAuthoritative error. -/
theorem absent_name_failure_split_witness :
    storeGet authC2.records (lower "sub.example.com") = none ∧
    lookup authC2 "sub.example.com" dns.A =
      Except.error (DNSError.AuthoritativeDomainError "sub.example.com") := by
  refine ⟨rfl, ?_⟩
  rw [absent_name_failure_split authC2 "sub.example.com" dns.A rfl]
  rfl

/-- Claim C10: a store key that is present but maps to an empty record list
behaves exactly as an absent key: resolve fails through the same
subdomain-of-apex split, with no sections. -/
theorem empty_entry_behaves_absent (auth : MemoryAuthority) (name : String)
    (qtype : Nat) (hemp : storeGet auth.records (lower name) = some []) :
    lookup auth name qtype =
      if isSubdomainOf name auth.soaName then
        Except.error (DNSError.AuthoritativeDomainError name)
      else Except.error (DNSError.DomainError name) := by
  unfold lookup
  rw [hemp]
  rfl

/-- Witness for C10: authC10 stores the key gone.example.com with an empty
record list, and resolving that exact name fails NotAuthoritative. -/
theorem empty_entry_behaves_absent_witness :
    storeGet authC10.records (lower "gone.example.com") = some [] ∧
    lookup authC10 "gone.example.com" dns.A =
      Except.error (DNSError.AuthoritativeDomainError "gone.example.com") := by
  refine ⟨rfl, ?_⟩
  rw [empty_entry_behaves_absent authC10 "gone.example.com" dns.A rfl]
  rfl

/-- Claim C3: when the record pass over a present owner leaves results,
authority and cnames all empty (so answer and authority are empty after
synthesis as well), resolve appends the zone SOA to authority, with the
header ttl equal to the effective ttl of the last record examined (its own
ttl when set, else the zone default). -/
theorem negative_answer_soa_ttl (auth : MemoryAuthority) (name : String)
    (qtype : Nat) (r : Record) (rs : List Record)
    (hgot : storeGet auth.records (lower name) = some (r :: rs))
    (hpass : lookupPass auth name qtype (r :: rs) = ([], [], [])) :
    lookup auth name qtype =
      Except.ok ([],
        [⟨auth.soaName, dns.SOA, dns.IN,
          effTTL auth ((r :: rs).getLast (List.cons_ne_nil r rs)),
          auth.soaRecord, true⟩], []) := by
  unfold lookup
  rw [hgot]
  simp only [hpass]
  rw [← lastTTL_eq_getLast auth (r :: rs) (List.cons_ne_nil r rs)]
  rfl

/-- Witness for C3: querying MX at www.example.com in authC3, whose only
record there is an A record with ttl 123, yields an empty answer and an SOA
authority entry carrying that leftover ttl 123. -/
theorem negative_answer_soa_ttl_witness :
    storeGet authC3.records (lower "www.example.com") = some [recA3] ∧
    lookupPass authC3 "www.example.com" dns.MX [recA3] = ([], [], []) ∧
    lookup authC3 "www.example.com" dns.MX =
      Except.ok ([],
        [⟨"example.com", dns.SOA, dns.IN, 123, soaRecEx, true⟩], []) := by
  refine ⟨rfl, rfl, ?_⟩
  rw [negative_answer_soa_ttl authC3 "www.example.com" dns.MX recA3 [] rfl rfl]
  rfl

/-- Claim C7: lookupZone on a name matching the apex case-insensitively
returns the SOA header, every non-SOA record of the store in store order,
and the SOA header again: N non-SOA records give a list of length N + 2
whose first and last elements are both the SOA header. -/
theorem zone_transfer_framing (auth : MemoryAuthority) (name : String)
    (hname : lower auth.soaName = lower name) :
    lookupZone auth name =
      Except.ok (soaHeader auth :: zoneBody auth ++ [soaHeader auth]) ∧
    (soaHeader auth :: zoneBody auth ++ [soaHeader auth]).length =
      countNonSOA auth.records + 2 ∧
    (soaHeader auth :: zoneBody auth ++ [soaHeader auth]).head? =
      some (soaHeader auth) ∧
    (soaHeader auth :: zoneBody auth ++ [soaHeader auth]).getLast? =
      some (soaHeader auth) := by
  refine ⟨?_, ?_, rfl, ?_⟩
  · unfold lookupZone
    rw [if_pos hname]
  · simp [zoneBody_length auth]
  · exact getLast?_append_singleton (soaHeader auth :: zoneBody auth)
      (soaHeader auth)

/-- Witness for C7: authC7 stores its SOA plus two non-SOA records, and
lookupZone on EXAMPLE.com (case differing from the apex) returns the
four-element SOA-framed list. -/
theorem zone_transfer_framing_witness :
    lower authC7.soaName = lower "EXAMPLE.com" ∧
    countNonSOA authC7.records = 2 ∧
    lookupZone authC7 "EXAMPLE.com" =
      Except.ok [soaHeader authC7, hdrMX1, hdrA7, soaHeader authC7] := by
  refine ⟨by decide, rfl, ?_⟩
  rw [(zone_transfer_framing authC7 "EXAMPLE.com" (by decide)).1]
  rfl

/-- Claim C8 counterexample: lookupZone on a non-apex name fails with
DomainError, which is not the AuthoritativeDomainError (NotAuthoritative)
the claim states. -/
theorem zone_mismatch_error_counterexample :
    lookupZone authC8 "other.org" =
      Except.error (DNSError.DomainError "other.org") ∧
    DNSError.DomainError "other.org" ≠
      DNSError.AuthoritativeDomainError "other.org" :=
  ⟨rfl, by decide⟩

/-- Claim C8 as amended: for every name whose lower-cased form differs from
the lower-cased apex, lookupZone fails with DomainError(name) — the error
the spec maps to NotInZone, not NotAuthoritative. -/
theorem zone_mismatch_domain_error (auth : MemoryAuthority) (name : String)
    (hne : lower auth.soaName ≠ lower name) :
    lookupZone auth name = Except.error (DNSError.DomainError name) := by
  unfold lookupZone
  rw [if_neg hne]

/-- Witness for amended C8: authC8 fails a zone transfer of nope.org with
DomainError. -/
theorem zone_mismatch_domain_error_witness :
    lower authC8.soaName ≠ lower "nope.org" ∧
    lookupZone authC8 "nope.org" =
      Except.error (DNSError.DomainError "nope.org") :=
  ⟨by decide, zone_mismatch_domain_error authC8 "nope.org" (by decide)⟩

/-- Claim C1 counterexample: in authC1 the apex owns an MX record and a
CNAME record.  Querying MX yields an original answer of just the MX header —
no CNAME record is in the answer — yet the synthesized address record for
the MX target is appended into the answer itself and the additional section
stays empty, because the gate is the nonemptiness of the collected CNAME
list, not the presence of a CNAME in the answer. -/
theorem cname_gate_counterexample :
    lookup authC1 "example.com" dns.MX =
      Except.ok ([hdrMX1, hdrGlue1], [], []) ∧
    (lookupPass authC1 "example.com" dns.MX [recMX1, recCN1]).1 =
      [hdrMX1] ∧
    hdrMX1.rtype ≠ dns.CNAME ∧
    additionalRecords authC1 [hdrMX1] [] = [hdrGlue1] :=
  ⟨rfl, rfl, by decide, rfl⟩

/-- Claim C1 as amended: the synthesized address records are appended into
the answer itself exactly when the record pass collected any CNAME record at
the owner (whether or not a CNAME ended up in the answer); only when no
CNAME record exists at the owner do they go into the additional section. -/
theorem glue_placement_follows_cname_list (auth : MemoryAuthority)
    (name : String) (qtype : Nat) (r : Record) (rs : List Record)
    (res1 info : List RRHeader)
    (hgot : storeGet auth.records (lower name) = some (r :: rs))
    (hres1 : res1 = (if (lookupPass auth name qtype (r :: rs)).1 = []
        then (lookupPass auth name qtype (r :: rs)).2.2
        else (lookupPass auth name qtype (r :: rs)).1))
    (hinfo : info = additionalRecords auth res1
        (lookupPass auth name qtype (r :: rs)).2.1) :
    ((lookupPass auth name qtype (r :: rs)).2.2 ≠ [] →
      lookup auth name qtype =
        Except.ok (res1 ++ info,
          (lookupPass auth name qtype (r :: rs)).2.1, [])) ∧
    ((lookupPass auth name qtype (r :: rs)).2.2 = [] →
      ∃ ans au, lookup auth name qtype = Except.ok (ans, au, info)) := by
  have hres1ne : (lookupPass auth name qtype (r :: rs)).2.2 ≠ [] →
      res1 ≠ [] := by
    intro hcn
    rw [hres1]
    by_cases h1 : (lookupPass auth name qtype (r :: rs)).1 = []
    · simpa [h1] using hcn
    · simp [h1]
  constructor
  · intro hcn
    unfold lookup
    rw [hgot]
    show Except.ok (assemble auth (r :: rs) _ _ _) = _
    unfold assemble
    simp only [← hres1, ← hinfo, if_neg hcn]
    have h2 : ¬ (res1 ++ info = [] ∧
        (lookupPass auth name qtype (r :: rs)).2.1 = []) := by
      intro ⟨ha, _⟩
      exact hres1ne hcn (List.append_eq_nil.mp ha).1
    rw [if_neg h2]
  · intro hcn
    have hl : lookup auth name qtype =
        Except.ok (assemble auth (r :: rs)
          (lookupPass auth name qtype (r :: rs)).1
          (lookupPass auth name qtype (r :: rs)).2.1
          (lookupPass auth name qtype (r :: rs)).2.2) := by
      unfold lookup
      rw [hgot]
    have h3 : (assemble auth (r :: rs)
        (lookupPass auth name qtype (r :: rs)).1
        (lookupPass auth name qtype (r :: rs)).2.1
        (lookupPass auth name qtype (r :: rs)).2.2).2.2 = info := by
      unfold assemble
      simp only [← hres1, ← hinfo, if_pos hcn]
    refine ⟨(assemble auth (r :: rs)
        (lookupPass auth name qtype (r :: rs)).1
        (lookupPass auth name qtype (r :: rs)).2.1
        (lookupPass auth name qtype (r :: rs)).2.2).1,
      (assemble auth (r :: rs)
        (lookupPass auth name qtype (r :: rs)).1
        (lookupPass auth name qtype (r :: rs)).2.1
        (lookupPass auth name qtype (r :: rs)).2.2).2.1, ?_⟩
    rw [hl, ← h3]

/-- Witness for amended C1: in authC1 the CNAME list from the pass is
nonempty, so the synthesized MX-target address record is merged into the
answer and the additional section is empty. -/
theorem glue_placement_follows_cname_list_witness :
    (lookupPass authC1 "example.com" dns.MX [recMX1, recCN1]).2.2 ≠ [] ∧
    lookup authC1 "example.com" dns.MX =
      Except.ok ([hdrMX1] ++ [hdrGlue1], [], []) := by
  refine ⟨by decide, ?_⟩
  rw [(glue_placement_follows_cname_list authC1 "example.com" dns.MX
    recMX1 [recCN1] [hdrMX1] [hdrGlue1] rfl rfl rfl).1 (by decide)]
  rfl

/-- Claim C9 counterexample: in authC9 the MX target mail.example.com has an
A record with an explicit ttl of 0, yet the additional header synthesized
from it carries the zone default 42, because the source computes the ttl
with a Python or-expression in which 0 is falsy. -/
theorem explicit_zero_ttl_counterexample :
    lookup authC9 "example.com" dns.MX =
      Except.ok ([hdrMX1], [], [hdrGlue9]) ∧
    recA0.ttl = some 0 ∧
    hdrGlue9.payload = recA0 ∧
    hdrGlue9.ttl = defaultTTL authC9 ∧
    defaultTTL authC9 ≠ 0 :=
  ⟨rfl, rfl, rfl, rfl, by decide⟩

/-- Claim C9 as amended: headers built by the record pass and by lookupZone
always carry the record's effective ttl, which honours any explicit ttl
including 0; headers synthesized for the additional section instead carry
(payload ttl or default), which honours an explicit ttl only when it is
nonzero and falls back to the zone default for an explicit 0. -/
theorem explicit_ttl_usage :
    (∀ (auth : MemoryAuthority) (name : String) (qtype : Nat)
       (recs : List Record) (h : RRHeader),
      (h ∈ (lookupPass auth name qtype recs).1 ∨
       h ∈ (lookupPass auth name qtype recs).2.1 ∨
       h ∈ (lookupPass auth name qtype recs).2.2) →
      h.ttl = effTTL auth h.payload) ∧
    (∀ (auth : MemoryAuthority) (ans au : List RRHeader) (h : RRHeader),
      h ∈ additionalRecords auth ans au →
      h.ttl = orTTL h.payload.ttl (defaultTTL auth)) ∧
    (∀ (auth : MemoryAuthority) (h : RRHeader),
      h ∈ zoneBody auth → h.ttl = effTTL auth h.payload) ∧
    (∀ (auth : MemoryAuthority) (r : Record) (t : Nat),
      r.ttl = some t → effTTL auth r = t) ∧
    (∀ (auth : MemoryAuthority) (r : Record) (t : Nat),
      r.ttl = some t → t ≠ 0 → orTTL r.ttl (defaultTTL auth) = t) ∧
    (∀ (auth : MemoryAuthority) (r : Record),
      r.ttl = some 0 → orTTL r.ttl (defaultTTL auth) = defaultTTL auth) :=
  ⟨fun auth name qtype recs h hm => pass_header_ttl auth name qtype recs h hm,
   fun auth ans au h hm => additional_header_ttl auth ans au h hm,
   fun auth h hm => zoneBody_header_ttl auth h hm,
   fun auth r t h => by simp [effTTL, h],
   fun auth r t h hne => by simp [orTTL, h, hne],
   fun auth r h => by simp [orTTL, h]⟩

/-- Witness for amended C9: the synthesized header of authC9 carries the
or-fallback ttl, and the explicit ttl 123 of recA3 is honoured by effTTL
while the explicit 0 of recA0 is dropped by the or-expression. -/
theorem explicit_ttl_usage_witness :
    hdrGlue9 ∈ additionalRecords authC9 [hdrMX1] [] ∧
    hdrGlue9.ttl = orTTL hdrGlue9.payload.ttl (defaultTTL authC9) ∧
    recA3.ttl = some 123 ∧
    effTTL authC9 recA3 = 123 ∧
    orTTL recA0.ttl (defaultTTL authC9) = defaultTTL authC9 := by
  have hm : hdrGlue9 ∈ additionalRecords authC9 [hdrMX1] [] := by
    rw [show additionalRecords authC9 [hdrMX1] [] = [hdrGlue9] from rfl]
    exact List.mem_singleton.mpr rfl
  exact ⟨hm, explicit_ttl_usage.2.1 authC9 [hdrMX1] [] hdrGlue9 hm, rfl,
    explicit_ttl_usage.2.2.2.1 authC9 recA3 123 rfl,
    explicit_ttl_usage.2.2.2.2.2 authC9 recA0 rfl⟩

/-- Claim C4 counterexample: parsing the line www IN A 1.2.3.4 followed by
the implicit-owner line 600 IN A 5.6.7.8 under origin example.com. stores
the second record under the origin, not under the owner www of the previous
line — parseRecordLine re-initialises its owner from the origin on every
line, so no owner persists. -/
theorem owner_persistence_counterexample :
    parseLines "example.com."
      [["www", "IN", "A", "1.2.3.4"], ["600", "IN", "A", "5.6.7.8"]] =
      Except.ok ⟨[("www.example.com.", [⟨"A", ["1.2.3.4"], 10800⟩]),
                  ("example.com", [⟨"A", ["5.6.7.8"], 600⟩])], none⟩ ∧
    parseRecordLine "example.com." 10800 ["600", "IN", "A", "5.6.7.8"] =
      Except.ok args600 ∧
    args600.domain ≠ "www" :=
  ⟨rfl, rfl, by decide⟩

/-- Claim C4 as amended: a record line whose first token is a digit string
or a recognized class/type keyword (an implicit-owner continuation) is
parsed with both the domain and the owner equal to the current origin — the
owner set by a previous record line does not persist. -/
theorem implicit_owner_uses_origin (origin : String) (dflt : Nat)
    (t0 : String) (rest : List String) (args : RecordLineArgs)
    (ht : (isdigit t0 || MARKERS.contains t0) = true)
    (hok : parseRecordLine origin dflt (t0 :: rest) = Except.ok args) :
    args.domain = origin ∧ args.owner = origin := by
  have hat : t0 ≠ "@" := by
    rintro rfl
    exact absurd ht (by decide)
  have ht2 : isdigit t0 = true ∨ t0 ∈ MARKERS := by simpa using ht
  have hcond : ¬ (isdigit t0 = false ∧ t0 ∉ MARKERS) := by
    rcases ht2 with h | h
    · rintro ⟨hc, -⟩
      rw [h] at hc
      cases hc
    · rintro ⟨-, hc⟩
      exact hc h
  have hod : ownerAndDomain origin (t0 :: rest) =
      Except.ok (origin, origin, t0 :: rest) := by
    simp [ownerAndDomain, hat, hcond, ht2]
  have hpr : parseRecordLine origin dflt (t0 :: rest) =
      (match classTTL dflt (t0 :: rest) with
       | Except.error e => Except.error e
       | Except.ok (cls, ttl2, line3) =>
         match line3 with
         | [] => Except.error ParseError.IndexError
         | ty :: rdata =>
           Except.ok ⟨origin, ttl2, ty, origin, cls, rdata⟩) := by
    unfold parseRecordLine
    rw [hod]
  rw [hpr] at hok
  cases hct : classTTL dflt (t0 :: rest) with
  | error e => rw [hct] at hok; cases hok
  | ok v =>
    obtain ⟨cls, ttl2, line3⟩ := v
    rw [hct] at hok
    cases line3 with
    | nil => cases hok
    | cons ty rd =>
      cases hok
      exact ⟨rfl, rfl⟩

/-- Witness for amended C4: the implicit-owner line 600 IN A 5.6.7.8 under
origin example.com. parses with domain and owner both equal to the
origin. -/
theorem implicit_owner_uses_origin_witness :
    (isdigit "600" || MARKERS.contains "600") = true ∧
    parseRecordLine "example.com." 10800 ["600", "IN", "A", "5.6.7.8"] =
      Except.ok args600 ∧
    (args600.domain = "example.com." ∧ args600.owner = "example.com.") :=
  ⟨by decide, rfl,
   implicit_owner_uses_origin "example.com." 10800 "600"
     ["IN", "A", "5.6.7.8"] args600 (by decide) rfl⟩

/-- Claim C5: the continued multi-line form of the parenthesized SOA line
parses into an SOA record carrying all seven rdata tokens, but the
single-line equivalent does not parse identically: collapseContinuations
truncates any line containing an opening parenthesis at that parenthesis
without checking for a matching closing one on the same line, so the
parenthesized rdata of the single-line form is silently dropped and its SOA
record keeps only the two tokens before the parenthesis. -/
theorem paren_single_line_divergence :
    loadLines "example.com." soaMultiLines =
      Except.ok ⟨[("example.com", [⟨"SOA", soaRdataFull, 10800⟩])],
        some ("example.com", ⟨"SOA", soaRdataFull, 10800⟩)⟩ ∧
    loadLines "example.com." soaSingleLine =
      Except.ok ⟨[("example.com", [⟨"SOA", ["ns1", "admin"], 10800⟩])],
        some ("example.com", ⟨"SOA", ["ns1", "admin"], 10800⟩)⟩ ∧
    soaRdataFull ≠ ["ns1", "admin"] ∧
    collapseContinuations soaSingleLine =
      [["@", "IN", "SOA", "ns1", "admin"]] :=
  ⟨rfl, rfl, by decide, rfl⟩

/-- Claim C6 counterexample: the record line www foo IN A 1.2.3.4 under
origin example.com. carries both an owner token and a separate domain
token; its record is stored under foo.www — the domain token with a dot and
the owner token appended — not under the lower-casing of foo together with
the current origin, as the claim requires. -/
theorem store_key_origin_counterexample :
    processRecordLine ⟨[], none⟩ "example.com." 10800
      ["www", "foo", "IN", "A", "1.2.3.4"] =
      Except.ok ⟨[("foo.www", [⟨"A", ["1.2.3.4"], 10800⟩])], none⟩ ∧
    ("foo.www" : String) ≠ lower ("foo" ++ "." ++ "example.com.") :=
  ⟨rfl, by decide⟩

/-- Claim C6 as amended: every successfully processed record line appends
its record under the lower-casing of the normalised domain, where a domain
token with a trailing dot has the dot stripped and any other domain token
gets a dot and the line's owner value appended — the owner equals the
current origin except when the line supplies both an owner token and a
separate domain token. -/
theorem store_key_appends_owner (st : ParseState) (origin : String)
    (dflt : Nat) (line : List String) (st' : ParseState)
    (hok : processRecordLine st origin dflt line = Except.ok st') :
    ∃ args, parseRecordLine origin dflt line = Except.ok args ∧
      args.cls = "IN" ∧ RECORD_TYPES.contains args.rtype = true ∧
      st'.records = storeAppend st.records
        (lower (if strEndsWith args.domain "." then dropLastChar args.domain
                else args.domain ++ "." ++ args.owner))
        ⟨args.rtype, args.rdata, args.ttl⟩ := by
  unfold processRecordLine at hok
  cases hpl : parseRecordLine origin dflt line with
  | error e => rw [hpl] at hok; cases hok
  | ok a =>
    rw [hpl] at hok
    replace hok :
        addRecord st a.owner a.ttl a.rtype a.domain a.cls a.rdata =
          Except.ok st' := hok
    refine ⟨a, rfl, ?_⟩
    unfold addRecord at hok
    by_cases hcls : a.cls = "IN"
    · rw [if_pos hcls] at hok
      unfold class_IN at hok
      by_cases hty : RECORD_TYPES.contains a.rtype = true
      · rw [if_pos hty] at hok
        refine ⟨hcls, hty, ?_⟩
        have hkey :
            (if (!strEndsWith a.domain ".") = true
             then a.domain ++ "." ++ a.owner
             else dropLastChar a.domain) =
            (if strEndsWith a.domain "." = true
             then dropLastChar a.domain
             else a.domain ++ "." ++ a.owner) := by
          cases hE : strEndsWith a.domain "." <;> simp [hE]
        rw [hkey] at hok
        by_cases hsoa : a.rtype = "SOA"
        · rw [if_pos hsoa] at hok
          cases hok
          rfl
        · rw [if_neg hsoa] at hok
          cases hok
          rfl
      · rw [if_neg hty] at hok
        cases hok
    · rw [if_neg hcls] at hok
      cases hok

/-- Witness for amended C6: the ordinary line www IN A 9.9.9.9 under origin
example.com. is stored under www.example.com. — the domain token, a dot and
the owner, which here is the origin. -/
theorem store_key_appends_owner_witness :
    processRecordLine ⟨[], none⟩ "example.com." 10800
      ["www", "IN", "A", "9.9.9.9"] = Except.ok stWWW ∧
    (∃ args, parseRecordLine "example.com." 10800
        ["www", "IN", "A", "9.9.9.9"] = Except.ok args ∧
      args.cls = "IN" ∧ RECORD_TYPES.contains args.rtype = true ∧
      stWWW.records = storeAppend (⟨[], none⟩ : ParseState).records
        (lower (if strEndsWith args.domain "." then dropLastChar args.domain
                else args.domain ++ "." ++ args.owner))
        ⟨args.rtype, args.rdata, args.ttl⟩) :=
  ⟨rfl, store_key_appends_owner ⟨[], none⟩ "example.com." 10800
    ["www", "IN", "A", "9.9.9.9"] stWWW rfl⟩
